import Mathlib

/-!
# Verification of the Duplex Studio page organizer and imposition planner

Shallow embedding of the page-sequence model and imposition planner of the
repository (src/types.ts).  Pure list manipulations of the React component
(`handleFileChange`, `parseDeleteRanges`, `handleInsertBlank`, `onDrop`,
`saveToHistory`, `undo`, `handleProcess`) are translated to Lean functions on
explicit state; the imposition planner `calculateImposition` lives in
`services/pdfService.ts`, which is not part of the sources, and is therefore
modelled from the spec.
-/

set_option maxHeartbeats 1000000

namespace DuplexStudio

/-- `PageSourceType` from src/types.ts: `'original' | 'blank' | 'external' | 'duplicate'`. -/
inductive PageSourceType where
  | original
  | blank
  | external
  | duplicate
deriving DecidableEq, Repr

/-- `PageItem` from src/types.ts.  The optional TypeScript fields
`sourceFileId?` and `originalPageIndex?` become `Option`s. -/
structure PageItem where
  id : String
  type : PageSourceType
  sourceFileId : Option String
  originalPageIndex : Option Nat
  label : String
deriving DecidableEq, Repr

/-- One side of a sheet in `PageMap` from src/types.ts: `{ left, right }`,
each `PageItem | null`. -/
structure SheetSide where
  left : Option PageItem
  right : Option PageItem
deriving DecidableEq, Repr

/-- `PageMap` from src/types.ts: one physical sheet with front and back sides. -/
structure PageMap where
  sheetIndex : Nat
  front : SheetSide
  back : SheetSide
deriving DecidableEq, Repr

/-- `ProcessingState` from src/types.ts; `error` and `resultUrl` are
`string | null`. -/
structure ProcessingState where
  isProcessing : Bool
  progress : Nat
  error : Option String
  resultUrl : Option String
deriving DecidableEq, Repr

/-- The page descriptors created by `handleFileChange` (src/types.ts lines
142-147) for a successfully loaded `count`-page document: one ORIGINAL
descriptor per source page, in source order.  The `Math.random()` suffix of
the id is modelled by the opaque suffix function `rand`. -/
def initialPages (count : Nat) (rand : Nat → String) : List PageItem :=
  (List.range count).map (fun i =>
    { id := "orig-" ++ toString i ++ "-" ++ rand i
      type := PageSourceType.original
      sourceFileId := none
      originalPageIndex := some i
      label := "Page " ++ toString (i + 1) })

/-- The relevant component state touched by `handleFileChange`
(src/types.ts lines 135-156): the selected file, the page sequence, the
undo history and the processing state. -/
structure AppState where
  file : Option String
  pages : List PageItem
  history : List (List PageItem)
  processState : ProcessingState
deriving DecidableEq, Repr

/-- Outcome of the file-selection event feeding `handleFileChange`:
no file picked, a non-PDF file (the handler ignores both), or a PDF whose
`PDFDocument.load` either yields a page count or throws. -/
inductive FileSelection where
  | noFile
  | nonPdf
  | pdfOk (name : String) (pageCount : Nat)
  | pdfLoadFailure (name : String)
deriving DecidableEq, Repr

/-- The error message set by the `catch` branch of `handleFileChange`. -/
def loadFailureMessage : String :=
  "Failed to load PDF. It might be encrypted or corrupted."

/-- `handleFileChange` from src/types.ts (lines 135-156) as a state
transition.  On a successful load the file, pages, history and processing
state are replaced; on a load failure only `processState.error` is set
(the `catch` branch spreads the previous processing state); a missing or
non-PDF selection changes nothing. -/
def handleFileChange (sel : FileSelection) (rand : Nat → String)
    (st : AppState) : AppState :=
  match sel with
  | FileSelection.noFile => st
  | FileSelection.nonPdf => st
  | FileSelection.pdfOk name count =>
      { file := some name
        pages := initialPages count rand
        history := []
        processState :=
          { isProcessing := false, progress := 0, error := none, resultUrl := none } }
  | FileSelection.pdfLoadFailure _ =>
      { st with processState := { st.processState with error := some loadFailureMessage } }

/-- JavaScript `array.splice(n, 0, x)`: insert `x` at position `n`,
clamping `n` to the array length (so an oversized index appends). -/
def spliceInsert (l : List α) (n : Nat) (x : α) : List α :=
  l.take n ++ x :: l.drop n

/-- JavaScript `array.splice(n, 0, ...xs)`: insert the block `xs` at
position `n`, clamping `n` to the array length. -/
def spliceInsertAll (l : List α) (n : Nat) (xs : List α) : List α :=
  l.take n ++ xs ++ l.drop n

/-- `onDrop` from src/types.ts (lines 231-241), restricted to its effect on
the page list: a `null` dragged index or a drop on the dragged position is a
no-op, otherwise the dragged item is removed (`splice(draggedIndex, 1)`) and
reinserted at the target position (`splice(targetIndex, 0, movedItem)`).
The `none` fallback of the match covers an out-of-range dragged index, which
the UI never produces (every index it passes comes from rendering the list). -/
def onDrop (pages : List α) (draggedIndex : Option Nat) (targetIndex : Nat) :
    List α :=
  match draggedIndex with
  | none => pages
  | some di =>
      if di = targetIndex then pages
      else
        match pages[di]? with
        | none => pages
        | some movedItem => spliceInsert (pages.eraseIdx di) targetIndex movedItem

/-- The component state read and written by `saveToHistory` and `undo`
(src/types.ts lines 123-133). -/
structure OrganizerState where
  pages : List PageItem
  history : List (List PageItem)
deriving DecidableEq, Repr

/-- `saveToHistory` from src/types.ts (lines 123-126): push the current page
list onto the history, keeping only the last 19 previous entries
(`prev.slice(-19)`), and make `newPages` current. -/
def saveToHistory (st : OrganizerState) (newPages : List PageItem) :
    OrganizerState :=
  { pages := newPages
    history := st.history.drop (st.history.length - 19) ++ [st.pages] }

/-- `undo` from src/types.ts (lines 128-133): with empty history do nothing,
otherwise make the most recent snapshot current and pop it. -/
def undo (st : OrganizerState) : OrganizerState :=
  match st.history.getLast? with
  | none => st
  | some prev => { pages := prev, history := st.history.dropLast }

/-- Digit run of JavaScript `parseInt`: longest leading run of decimal
digits, `NaN` (here `none`) when there is none. -/
def digitsValue (cs : List Char) : Option Nat :=
  let ds := cs.takeWhile Char.isDigit
  if ds.isEmpty then none
  else some (ds.foldl (fun a c => a * 10 + (c.toNat - 48)) 0)

/-- JavaScript `parseInt(s)` (radix 10, as exercised by the range inputs):
skip leading whitespace, accept an optional sign, then read decimal digits,
ignoring any trailing garbage; `NaN` becomes `none`.  (The hexadecimal
`0x` prefix of `parseInt` is not exercised by any spec example and is not
modelled.) -/
def jsParseInt (cs : List Char) : Option Int :=
  match cs.dropWhile Char.isWhitespace with
  | '-' :: rest => (digitsValue rest).map (fun n => -(n : Int))
  | '+' :: rest => (digitsValue rest).map (fun n => (n : Int))
  | rest => (digitsValue rest).map (fun n => (n : Int))

/-- JavaScript `String.prototype.split(sep)` for a single-character
separator, on the character list; `"".split(sep)` is `[""]`. -/
def jsSplit (sep : Char) : List Char → List (List Char)
  | [] => [[]]
  | c :: cs =>
      match jsSplit sep cs with
      | [] => [[c]]
      | r :: rs => if c = sep then [] :: r :: rs else (c :: r) :: rs

/-- JavaScript `String.prototype.trim` on the character list. -/
def jsTrim (cs : List Char) : List Char :=
  ((cs.dropWhile Char.isWhitespace).reverse.dropWhile Char.isWhitespace).reverse

/-- Insertion into a JavaScript `Set`, modelled as an insertion-ordered
duplicate-free list: adding an element already present changes nothing. -/
def setAdd (l : List Int) (x : Int) : List Int :=
  if l.contains x then l else l ++ [x]

/-- The inclusive integer range `lo, lo+1, ..., hi` walked by the `for`
loop of `parseDeleteRanges` (empty when `hi < lo`, which cannot happen
there since the loop runs from the minimum to the maximum). -/
def intRange (lo hi : Int) : List Int :=
  if hi < lo then []
  else (List.range ((hi - lo).toNat + 1)).map (fun k => lo + (k : Int))

/-- Processing of one comma-separated part by `parseDeleteRanges`
(src/types.ts lines 161-171): a part containing a hyphen contributes the
1-based inclusive range between the first two hyphen-separated numbers
(in either order) when both parse, converted to 0-based; any other part
contributes its single parsed number, 0-based; unparseable parts are
dropped. -/
def addPart (indices : List Int) (part : List Char) : List Int :=
  if part.contains '-' then
    let pieces := jsSplit '-' part
    match (pieces[0]?).bind jsParseInt, (pieces[1]?).bind jsParseInt with
    | some s, some e => (intRange (min s e) (max s e)).foldl
        (fun acc i => setAdd acc (i - 1)) indices
    | _, _ => indices
  else
    match jsParseInt part with
    | some n => setAdd indices (n - 1)
    | none => indices

/-- `parseDeleteRanges` from src/types.ts (lines 158-173): split the input
on commas, trim each part, collect the 0-based indices contributed by each
part into a set (insertion-ordered), and keep only indices within
`[0, pagesLen)`.  The `pages.length` captured from component state is the
explicit parameter `pagesLen`. -/
def parseDeleteRanges (input : String) (pagesLen : Nat) : List Int :=
  let parts := (jsSplit ',' input.toList).map jsTrim
  let indices := parts.foldl addPart []
  indices.filter (fun i => 0 ≤ i && i < (pagesLen : Int))

/-- `before`/`after` of the insert-blank panel (src/types.ts line 105). -/
inductive InsertPosition where
  | before
  | after
deriving DecidableEq, Repr

/-- JavaScript `Array.from({length: n})` for an integer `n`: a negative
length yields an empty array. -/
def jsArrayLength (n : Int) : Nat := n.toNat

/-- The BLANK descriptors built by `handleInsertBlank` (src/types.ts lines
185-189); `Date.now()` is the parameter `now`. -/
def newBlanks (count : Int) (now : Nat) : List PageItem :=
  (List.range (jsArrayLength count)).map (fun i =>
    { id := "blank-" ++ toString now ++ "-" ++ toString i
      type := PageSourceType.blank
      sourceFileId := none
      originalPageIndex := none
      label := "Blank Page" })

/-- The count held in `insertConfig.count` after typing `s` into the count
input (src/types.ts line 526): `parseInt(e.target.value) || 1`, so `NaN`
and `0` become `1` but any other integer — including a negative one —
passes through. -/
def countFromInput (s : String) : Int :=
  match jsParseInt s.toList with
  | none => 1
  | some n => if n = 0 then 1 else n

/-- `handleInsertBlank` from src/types.ts (lines 183-193): compute the
splice index from the 1-based target page, clamped to `[0, pages.length]`,
build `count` blank descriptors (`Array.from({length: count})`, hence none
for a non-positive count) and splice them in. -/
def handleInsertBlank (pages : List PageItem) (count : Int)
    (position : InsertPosition) (target : Int) (now : Nat) : List PageItem :=
  let targetIdx : Int :=
    max 0 (min (pages.length : Int)
      (target - (if position = InsertPosition.before then 1 else 0)))
  spliceInsertAll pages targetIdx.toNat (newBlanks count now)

/-- The fallback error message of `handleProcess` (src/types.ts line 213). -/
def unknownProcessError : String :=
  "Unknown error occurred during PDF generation."

/-- `handleProcess` from src/types.ts (lines 195-217), as a function from
the outcome of the `processPdf` collaborator to the final processing state:
success stores the result URL with progress 100; a thrown error stores
`err.message || fallback` (an empty/absent message falls back) with no
result URL and processing finished. -/
def handleProcess (result : Except String String) : ProcessingState :=
  match result with
  | Except.ok url =>
      { isProcessing := false, progress := 100, error := none, resultUrl := some url }
  | Except.error msg =>
      { isProcessing := false, progress := 0
        error := some (if msg = "" then unknownProcessError else msg)
        resultUrl := none }

/-- Modelled from the spec: one sheet of `calculateImposition`
(`services/pdfService.ts`, not among the sources).  §4.2: within a block of
at most four descriptors, the quadrants are filled in traversal order
front-left, front-right, back-left, back-right, padding with empty when the
block runs short. -/
def mkSheet (b : Nat) (block : List PageItem) : PageMap :=
  { sheetIndex := b
    front := { left := block[0]?, right := block[1]? }
    back := { left := block[2]?, right := block[3]? } }

/-- Modelled from the spec: the recursion of `calculateImposition`
(`services/pdfService.ts`, not among the sources).  §4.2: process the
sequence in blocks of 4 consecutive descriptors; block `b` (0-based)
produces sheet `b`; a final short block is padded with empty quadrants. -/
def planFrom (b : Nat) : List PageItem → List PageMap
  | [] => []
  | [p1] => [mkSheet b [p1]]
  | [p1, p2] => [mkSheet b [p1, p2]]
  | [p1, p2, p3] => [mkSheet b [p1, p2, p3]]
  | p1 :: p2 :: p3 :: p4 :: rest =>
      mkSheet b [p1, p2, p3, p4] :: planFrom (b + 1) rest

/-- Modelled from the spec: `calculateImposition` (`planImposition`) of
`services/pdfService.ts`, not among the sources — the pure map from a page
sequence to its sheet layouts (§4.2), starting at sheet index 0. -/
def calculateImposition (pages : List PageItem) : List PageMap :=
  planFrom 0 pages

/-- The four quadrant slots of a sheet in traversal order (§4.2):
front-left, front-right, back-left, back-right. -/
def sheetQuads (s : PageMap) : List (Option PageItem) :=
  [s.front.left, s.front.right, s.back.left, s.back.right]

/-- All quadrant slots of a planner output, sheets in ascending order,
quadrants in traversal order within each sheet. -/
def allQuads (sheets : List PageMap) : List (Option PageItem) :=
  (sheets.map sheetQuads).flatten

/-- Reading a planner output in traversal order, discarding empty
quadrants. -/
def readSheets (sheets : List PageMap) : List PageItem :=
  (allQuads sheets).filterMap id

/-- The spec's per-descriptor kind invariant, stated in the spec's own words
(§3) for comparison with the descriptors the code actually builds:
ORIGINAL and EXTERNAL/DUPLICATE descriptors must carry both a source-document
reference and a source page index; BLANK must carry neither. -/
def specKindInvariant (p : PageItem) : Prop :=
  ((p.type = PageSourceType.original ∨ p.type = PageSourceType.external ∨
      p.type = PageSourceType.duplicate) →
    (p.sourceFileId ≠ none ∧ p.originalPageIndex ≠ none)) ∧
  (p.type = PageSourceType.blank →
    (p.sourceFileId = none ∧ p.originalPageIndex = none))

instance (p : PageItem) : Decidable (specKindInvariant p) := by
  unfold specKindInvariant
  infer_instance

/-- A fixed two-page sequence used as a concrete state for counterexamples. -/
def twoLoadedPages : List PageItem := initialPages 2 (fun _ => "r")

/-- A concrete ten-page sequence instantiating the spec's imposition example. -/
def sample10 : List PageItem := initialPages 10 (fun _ => "r")

section Helpers

variable {α : Type _}

theorem allQuads_cons (s : PageMap) (ss : List PageMap) :
    allQuads (s :: ss) = sheetQuads s ++ allQuads ss := by
  simp [allQuads]

theorem length_take_of_le {l : List α} {n : Nat} (h : n ≤ l.length) :
    (l.take n).length = n := by
  simp [List.length_take]
  omega

theorem spliceInsert_getElem? (l : List α) (n : Nat) (x : α) (h : n ≤ l.length) :
    (spliceInsert l n x)[n]? = some x := by
  unfold spliceInsert
  rw [List.getElem?_append_right (by rw [length_take_of_le h])]
  rw [length_take_of_le h, Nat.sub_self]
  simp

theorem eraseIdx_spliceInsert (l : List α) (n : Nat) (x : α) (h : n ≤ l.length) :
    (spliceInsert l n x).eraseIdx n = l := by
  unfold spliceInsert
  rw [List.eraseIdx_append_of_length_le (by rw [length_take_of_le h])]
  rw [length_take_of_le h, Nat.sub_self, List.eraseIdx_cons_zero,
    List.take_append_drop]

theorem spliceInsert_eraseIdx_getElem (l : List α) (n : Nat) (h : n < l.length) :
    spliceInsert (l.eraseIdx n) n l[n] = l := by
  unfold spliceInsert
  rw [List.eraseIdx_eq_take_drop_succ]
  rw [List.take_left' (length_take_of_le (Nat.le_of_lt h)),
    List.drop_left' (length_take_of_le (Nat.le_of_lt h))]
  rw [List.getElem_cons_drop, List.take_append_drop]

theorem spliceInsert_perm_cons (l : List α) (n : Nat) (x : α) :
    (spliceInsert l n x).Perm (x :: l) := by
  unfold spliceInsert
  refine List.perm_middle.trans ?_
  rw [List.take_append_drop]

theorem cons_getElem_eraseIdx_perm (l : List α) (n : Nat) (h : n < l.length) :
    (l[n] :: l.eraseIdx n).Perm l := by
  rw [List.eraseIdx_eq_take_drop_succ]
  refine List.perm_middle.symm.trans ?_
  rw [List.getElem_cons_drop, List.take_append_drop]

theorem getElem?_cons_add_four (a b c d : α) (l : List α) (n : Nat) :
    (a :: b :: c :: d :: l)[n + 4]? = l[n]? := by
  show (a :: b :: c :: d :: l)[n + 1 + 1 + 1 + 1]? = l[n]?
  simp [List.getElem?_cons_succ]

end Helpers

theorem allQuads_planFrom : ∀ (ps : List PageItem) (b : Nat),
    allQuads (planFrom b ps) =
      ps.map some ++ List.replicate ((4 - ps.length % 4) % 4) none
  | [], _ => by simp [planFrom, allQuads]
  | [p1], _ => by
      simp [planFrom, allQuads, sheetQuads, mkSheet, List.replicate]
  | [p1, p2], _ => by
      simp [planFrom, allQuads, sheetQuads, mkSheet, List.replicate]
  | [p1, p2, p3], _ => by
      simp [planFrom, allQuads, sheetQuads, mkSheet, List.replicate]
  | p1 :: p2 :: p3 :: p4 :: rest, b => by
      have ih := allQuads_planFrom rest (b + 1)
      have hlen : (p1 :: p2 :: p3 :: p4 :: rest).length = rest.length + 4 := by
        simp [List.length_cons]
      rw [planFrom, allQuads_cons, ih, hlen, Nat.add_mod_right]
      simp [sheetQuads, mkSheet]

theorem length_planFrom : ∀ (ps : List PageItem) (b : Nat),
    (planFrom b ps).length = (ps.length + 3) / 4
  | [], _ => by simp [planFrom]
  | [p1], _ => by simp [planFrom]
  | [p1, p2], _ => by simp [planFrom]
  | [p1, p2, p3], _ => by simp [planFrom]
  | p1 :: p2 :: p3 :: p4 :: rest, b => by
      have ih := length_planFrom rest (b + 1)
      have hlen : (p1 :: p2 :: p3 :: p4 :: rest).length = rest.length + 4 := by
        simp [List.length_cons]
      rw [planFrom, List.length_cons, ih, hlen]
      omega

theorem getElem?_planFrom : ∀ (ps : List PageItem) (b i : Nat),
    (planFrom b ps)[i]? =
      if ps.length ≤ 4 * i then none
      else some { sheetIndex := b + i
                  front := { left := ps[4*i]?, right := ps[4*i+1]? }
                  back := { left := ps[4*i+2]?, right := ps[4*i+3]? } }
  | [], _, i => by simp [planFrom]
  | [p1], _, 0 => by simp [planFrom, mkSheet]
  | [p1], _, j + 1 => by
      rw [if_pos (by simp only [List.length_cons, List.length_nil]; omega)]
      simp [planFrom]
  | [p1, p2], _, 0 => by simp [planFrom, mkSheet]
  | [p1, p2], _, j + 1 => by
      rw [if_pos (by simp only [List.length_cons, List.length_nil]; omega)]
      simp [planFrom]
  | [p1, p2, p3], _, 0 => by simp [planFrom, mkSheet]
  | [p1, p2, p3], _, j + 1 => by
      rw [if_pos (by simp only [List.length_cons, List.length_nil]; omega)]
      simp [planFrom]
  | p1 :: p2 :: p3 :: p4 :: rest, b, 0 => by
      rw [if_neg (by simp [List.length_cons])]
      simp [planFrom, mkSheet]
  | p1 :: p2 :: p3 :: p4 :: rest, b, j + 1 => by
      have ih := getElem?_planFrom rest (b + 1) j
      have hL : (planFrom b (p1 :: p2 :: p3 :: p4 :: rest))[j + 1]? =
          (planFrom (b + 1) rest)[j]? := by
        rw [planFrom, List.getElem?_cons_succ]
      rw [hL, ih]
      have e0 : 4 * (j + 1) = 4 * j + 4 := by ring
      rw [e0]
      have e1 : 4 * j + 4 + 1 = 4 * j + 1 + 4 := by omega
      have e2 : 4 * j + 4 + 2 = 4 * j + 2 + 4 := by omega
      have e3 : 4 * j + 4 + 3 = 4 * j + 3 + 4 := by omega
      rw [e1, e2, e3, getElem?_cons_add_four, getElem?_cons_add_four,
        getElem?_cons_add_four, getElem?_cons_add_four]
      have hcond : ((p1 :: p2 :: p3 :: p4 :: rest).length ≤ 4 * j + 4) ↔
          (rest.length ≤ 4 * j) := by
        simp only [List.length_cons]
        omega
      by_cases hc : rest.length ≤ 4 * j
      · rw [if_pos hc, if_pos (hcond.mpr hc)]
      · rw [if_neg hc, if_neg (fun hh => hc (hcond.mp hh))]
        have hb : b + 1 + j = b + (j + 1) := by omega
        rw [hb]

/-- C1: reading the sheets of the planner output in traversal order (sheet
ascending; within a sheet front-left, front-right, back-left, back-right)
and discarding empty quadrants reproduces the input sequence exactly, and
the full quadrant stream is the input (wrapped in `some`) followed only by
the trailing empty quadrants of the final sheet — `(4 - len % 4) % 4` of
them, so none when the length is a multiple of 4. -/
theorem imposition_roundtrip (pages : List PageItem) :
    readSheets (calculateImposition pages) = pages ∧
    allQuads (calculateImposition pages) =
      pages.map some ++ List.replicate ((4 - pages.length % 4) % 4) none := by
  have h := allQuads_planFrom pages 0
  refine ⟨?_, h⟩
  rw [readSheets, calculateImposition] at *
  rw [h, List.filterMap_append, List.filterMap_map]
  simp

/-- C2: the planner produces `ceil(len / 4)` sheets, and sheet `b` holds the
block of four consecutive descriptors starting at `4*b`, assigned in the
order front-left, front-right, back-left, back-right, with `getElem?`
padding the quadrants with `none` when the sequence runs out; instantiated
at a 10-page sequence this gives 3 sheets with the contents the spec lists
for sheets 0 and 2. -/
theorem imposition_block_assignment (pages : List PageItem) (b : Nat)
    (h : 4 * b < pages.length) :
    (calculateImposition pages).length = (pages.length + 3) / 4 ∧
    (calculateImposition pages)[b]? =
      some { sheetIndex := b
             front := { left := pages[4*b]?, right := pages[4*b+1]? }
             back := { left := pages[4*b+2]?, right := pages[4*b+3]? } } := by
  refine ⟨length_planFrom pages 0, ?_⟩
  rw [calculateImposition, getElem?_planFrom, if_neg (by omega)]
  simp

/-- C2 witness: on the concrete 10-page sequence the planner yields exactly
3 sheets, and sheet 2 holds pages 9 and 10 on the front with both back
quadrants empty. -/
theorem imposition_block_assignment_witness :
    (calculateImposition sample10).length = 3 ∧
    (calculateImposition sample10)[2]? =
      some { sheetIndex := 2
             front := { left := sample10[8]?, right := sample10[9]? }
             back := { left := none, right := none } } := by
  have h := imposition_block_assignment sample10 2 (by decide)
  exact ⟨h.1.trans (by decide), h.2.trans (by decide)⟩

/-- C3 counterexample: loading a corrupt PDF while a two-page sequence is
present surfaces the blocking message but does NOT leave the page sequence
empty — the prior sequence is retained, contradicting the claim. -/
theorem load_failure_retains_pages :
    (handleFileChange (FileSelection.pdfLoadFailure "b.pdf") (fun _ => "r")
      { file := some "a.pdf"
        pages := twoLoadedPages
        history := []
        processState :=
          { isProcessing := false, progress := 0, error := none, resultUrl := none } }).pages
      = twoLoadedPages ∧ twoLoadedPages ≠ [] := by
  exact ⟨rfl, by decide⟩

/-- C3 amended: when loading a source document fails, a blocking `LoadError`
message is surfaced in the processing state, but the page sequence, selected
file, history, and the rest of the processing state are left unchanged — in
particular a sequence present before the failed load attempt is retained. -/
theorem load_failure_sets_error_only (name : String) (rand : Nat → String)
    (st : AppState) :
    (handleFileChange (FileSelection.pdfLoadFailure name) rand st).pages = st.pages ∧
    (handleFileChange (FileSelection.pdfLoadFailure name) rand st).file = st.file ∧
    (handleFileChange (FileSelection.pdfLoadFailure name) rand st).history = st.history ∧
    (handleFileChange (FileSelection.pdfLoadFailure name) rand st).processState.error
      = some loadFailureMessage ∧
    (handleFileChange (FileSelection.pdfLoadFailure name) rand st).processState.resultUrl
      = st.processState.resultUrl ∧
    (handleFileChange (FileSelection.pdfLoadFailure name) rand st).processState.isProcessing
      = st.processState.isProcessing :=
  ⟨rfl, rfl, rfl, rfl, rfl, rfl⟩

/-- C4 counterexample: the very first descriptor created by loading a
one-page document is an ORIGINAL descriptor with `sourceFileId` absent, so
it violates the spec's kind invariant, which demands a source-document
reference on every ORIGINAL descriptor. -/
theorem loaded_page_violates_kind_invariant :
    initialPages 1 (fun _ => "x") =
      [{ id := "orig-0-x"
         type := PageSourceType.original
         sourceFileId := none
         originalPageIndex := some 0
         label := "Page 1" }] ∧
    ¬ specKindInvariant
      { id := "orig-0-x"
        type := PageSourceType.original
        sourceFileId := none
        originalPageIndex := some 0
        label := "Page 1" } := by
  exact ⟨by decide, by decide⟩

/-- C4 amended: every descriptor created by loading a source document is an
ORIGINAL descriptor carrying its source page index but NO source-document
reference (`sourceFileId` is left absent; the primary document is implicit),
and every descriptor created by inserting blanks is a BLANK descriptor
carrying neither a source-document reference nor a source page index. -/
theorem descriptor_fields_by_kind (count : Nat) (rand : Nat → String)
    (i : Nat) (h : i < count) (c : Int) (now : Nat) :
    (initialPages count rand)[i]? =
      some { id := "orig-" ++ toString i ++ "-" ++ rand i
             type := PageSourceType.original
             sourceFileId := none
             originalPageIndex := some i
             label := "Page " ++ toString (i + 1) } ∧
    ∀ p ∈ newBlanks c now,
      p.type = PageSourceType.blank ∧ p.sourceFileId = none ∧
      p.originalPageIndex = none := by
  constructor
  · simp [initialPages, List.getElem?_range h]
  · intro p hp
    simp only [newBlanks, List.mem_map] at hp
    obtain ⟨j, _, rfl⟩ := hp
    exact ⟨rfl, rfl, rfl⟩

/-- C4 amended witness: instantiated at a two-page load, the first created
descriptor is ORIGINAL with index 0 and no source-file reference. -/
theorem descriptor_fields_by_kind_witness :
    (initialPages 2 (fun _ => "r"))[0]? =
      some { id := "orig-0-r"
             type := PageSourceType.original
             sourceFileId := none
             originalPageIndex := some 0
             label := "Page 1" } :=
  (descriptor_fields_by_kind 2 (fun _ => "r") 0 (by decide) 1 0).1

/-- C5: moving the descriptor at `f` to position `t` (remove, then reinsert
against the shortened list) and then immediately moving it back restores the
original order, for any in-bounds pair of indices. -/
theorem move_then_inverse_move (l : List α) (f t : Nat)
    (hf : f < l.length) (ht : t < l.length) :
    onDrop (onDrop l (some f) t) (some t) f = l := by
  by_cases hft : f = t
  · subst hft
    simp [onDrop]
  · have hf' : l[f]? = some l[f] := List.getElem?_eq_getElem hf
    have h1 : onDrop l (some f) t = spliceInsert (l.eraseIdx f) t l[f] := by
      simp [onDrop, hft, hf']
    have hlen : (l.eraseIdx f).length = l.length - 1 :=
      List.length_eraseIdx_of_lt hf
    have ht' : t ≤ (l.eraseIdx f).length := by omega
    have h2 : (spliceInsert (l.eraseIdx f) t l[f])[t]? = some l[f] :=
      spliceInsert_getElem? _ _ _ ht'
    have htf : ¬ (t = f) := fun hh => hft hh.symm
    rw [h1]
    simp only [onDrop, htf, if_false, h2]
    rw [eraseIdx_spliceInsert _ _ _ ht']
    exact spliceInsert_eraseIdx_getElem l f hf

/-- C5 witness: moving the first element of `[0, 1, 2]` to the end and back
restores `[0, 1, 2]`. -/
theorem move_then_inverse_move_witness :
    onDrop (onDrop [0, 1, 2] (some 0) 2) (some 2) 0 = [0, 1, 2] :=
  move_then_inverse_move [0, 1, 2] 0 2 (by decide) (by decide)

/-- C6: `parseDeleteRanges` is a pure function of the range text and the
sequence length; over a 20-page sequence the input "1,3,10-15" yields
exactly the zero-based indices 0, 2, 9, 10, 11, 12, 13, 14, and the
reversed range "15-10" yields the same index set as "10-15". -/
theorem parse_delete_ranges_examples :
    parseDeleteRanges "1,3,10-15" 20 = [0, 2, 9, 10, 11, 12, 13, 14] ∧
    parseDeleteRanges "15-10" 20 = parseDeleteRanges "10-15" 20 := by
  exact ⟨by decide, by decide⟩

/-- C7 counterexample: a count of -1 (reachable, since the count input maps
`parseInt(v) || 1` and a typed negative number is truthy) makes
`handleInsertBlank` insert no blank at all: the sequence is unchanged and in
particular not strictly longer, contradicting the claim that any count
below 1 behaves as count 1. -/
theorem negative_count_inserts_nothing :
    handleInsertBlank twoLoadedPages (-1) InsertPosition.after 1 0
      = twoLoadedPages ∧
    ¬ (twoLoadedPages.length <
        (handleInsertBlank twoLoadedPages (-1) InsertPosition.after 1 0).length) := by
  exact ⟨by decide, by decide⟩

/-- C7 amended: a count below 1 (necessarily negative, since the count input
parser turns `NaN` and 0 into 1) inserts no blanks and leaves the sequence
unchanged, while a count of at least 1 inserts exactly `count` BLANK
descriptors as a contiguous block, so the result is strictly longer than
the input. -/
theorem insert_blank_count_behaviour (pages : List PageItem) (count : Int)
    (position : InsertPosition) (target : Int) (now : Nat) :
    (count < 1 → handleInsertBlank pages count position target now = pages) ∧
    (1 ≤ count →
      (handleInsertBlank pages count position target now).length
          = pages.length + count.toNat ∧
      pages.length < (handleInsertBlank pages count position target now).length) := by
  have hblank : (newBlanks count now).length = count.toNat := by
    simp [newBlanks, jsArrayLength]
  constructor
  · intro hneg
    have hz : count.toNat = 0 := by omega
    have : newBlanks count now = [] := by
      rw [← List.length_eq_zero]
      rw [hblank, hz]
    rw [handleInsertBlank, this]
    simp [spliceInsertAll]
  · intro hpos
    have hone : 1 ≤ count.toNat := by omega
    have hlen : (handleInsertBlank pages count position target now).length
        = pages.length + count.toNat := by
      rw [handleInsertBlank]
      simp only [spliceInsertAll, List.length_append, hblank,
        List.length_take, List.length_drop]
      omega
    exact ⟨hlen, by omega⟩

/-- C7 amended witness: on the concrete two-page sequence, count -1 changes
nothing while count 2 grows the sequence from 2 to 4 pages. -/
theorem insert_blank_count_behaviour_witness :
    handleInsertBlank twoLoadedPages (-1) InsertPosition.before 1 0
      = twoLoadedPages ∧
    twoLoadedPages.length <
      (handleInsertBlank twoLoadedPages 2 InsertPosition.after 1 0).length :=
  ⟨(insert_blank_count_behaviour twoLoadedPages (-1) InsertPosition.before 1 0).1
      (by decide),
   ((insert_blank_count_behaviour twoLoadedPages 2 InsertPosition.after 1 0).2
      (by decide)).2⟩

/-- C8: `undo` immediately after a single `saveToHistory` mutation restores
the page sequence snapshot taken before that mutation, and `undo` on an
empty history stack — iterated any number of times — is a no-op (it is a
total function, so it never throws). -/
theorem undo_restores_snapshot (st : OrganizerState)
    (newPages currentPages : List PageItem) (n : Nat) :
    (undo (saveToHistory st newPages)).pages = st.pages ∧
    undo^[n] { pages := currentPages, history := [] }
      = { pages := currentPages, history := [] } := by
  constructor
  · simp [saveToHistory, undo, List.getLast?_concat]
  · induction n with
    | zero => rfl
    | succ k ih =>
        rw [Function.iterate_succ_apply,
          show undo { pages := currentPages, history := [] }
              = { pages := currentPages, history := [] } from rfl, ih]

/-- C9: whatever message the rendering collaborator fails with, the export
ends in a single terminal state: processing finished, no result URL, and a
non-empty human-readable error message (an empty thrown message falls back
to the generic one) — a failure is never surfaced as success. -/
theorem process_failure_terminal (msg : String) :
    (handleProcess (Except.error msg)).isProcessing = false ∧
    (handleProcess (Except.error msg)).resultUrl = none ∧
    (handleProcess (Except.error msg)).error.getD "" ≠ "" := by
  refine ⟨rfl, rfl, ?_⟩
  by_cases h : msg = ""
  · subst h
    decide
  · simp [handleProcess, h]

/-- C10: for any in-bounds dragged index, the drag-and-drop reorder is a
pure permutation of the sequence — same length and the same multiset of
descriptors (hence of descriptor ids), nothing duplicated or lost. -/
theorem drop_reorder_is_permutation (l : List α) (f t : Nat)
    (hf : f < l.length) :
    (onDrop l (some f) t).length = l.length ∧
    (onDrop l (some f) t).Perm l := by
  by_cases hft : f = t
  · simp [onDrop, hft]
  · have hf' : l[f]? = some l[f] := List.getElem?_eq_getElem hf
    have h1 : onDrop l (some f) t = spliceInsert (l.eraseIdx f) t l[f] := by
      simp [onDrop, hft, hf']
    rw [h1]
    constructor
    · simp only [spliceInsert, List.length_append, List.length_cons,
        List.length_take, List.length_drop, List.length_eraseIdx_of_lt hf]
      omega
    · exact (spliceInsert_perm_cons _ _ _).trans
        (cons_getElem_eraseIdx_perm l f hf)

/-- C10 witness: dragging element 1 of `[10, 20, 30]` onto position 0 keeps
the length at 3 and permutes the original list. -/
theorem drop_reorder_is_permutation_witness :
    (onDrop [10, 20, 30] (some 1) 0).length = 3 ∧
    (onDrop [10, 20, 30] (some 1) 0).Perm [10, 20, 30] :=
  drop_reorder_is_permutation [10, 20, 30] 1 0 (by decide)

end DuplexStudio
